import Mathlib

/-!
# Session manager and lock coordinator of `internal/pcsweb/session.go`

A shallow embedding of the `Manager` type of package `pcsweb` and of its
methods `sessionId`, `SessionStart`, `SessionDestroy`, `Init`, `CheckLock`,
`Lock`, `UnLock` and `WebSocketUnLock`.

Modelling conventions.

* The `Provider` and `Session` interfaces are a parameter of every manager
  operation, exactly as the Go `Manager` holds a `provider Provider` field.
  A provider works on a store of type `σ`; a non-nil `Session` value is a
  handle of type `H` into that store.  A nil `Session` is `none`.  The methods
  `SessionGC` and `Delete` are never reached from the operations embedded here
  and are left out.
* `pcsconfig.SessionMap` is a Go `map[string]*SessionData`; it is embedded as
  an association list.  Go maps have one entry per key, which is the
  `Nodup` condition on the keys used where iteration matters.
* `time.Time` values are integers counting nanoseconds; `time.Duration` is a
  64 bit signed count of nanoseconds.  All readings of `time.Now()` made during
  one call are the single instant `Ambient.now`.
* A Go run-time panic (method call on a nil interface, nil pointer
  dereference) is the result `none`.
* Mutexes and console output have no effect on the sequential behaviour and do
  not appear.
* The response writer is represented by the cookies handed to
  `http.SetCookie`, and the request by the result of `r.Cookie(name)`.
* The functions of the Go standard library that the code calls
  (`url.QueryEscape`, `url.QueryUnescape`, `base64.URLEncoding.EncodeToString`)
  are the fields of `Stdlib`.
-/

namespace Pcsweb

/-! ## Data model -/

/-- Go values of type `interface{}` that are not nil.  Only the distinction
between strings and values of another dynamic type matters to the code. -/
inductive Value where
  | str (s : String)
  | int (n : Int)
  | bool (b : Bool)
deriving DecidableEq, Repr

/-- The key `"lock"` under which the lock flag is stored in a session. -/
def lockKey : Value := Value.str "lock"

/-- Interfaces `Provider` (lines 16-25) and `Session` (lines 28-33).  The
`error` results are dropped because every caller discards them. -/
structure Provider (σ H : Type) where
  /-- Method `SessionInit(sid string) (Session, error)` -/
  SessionInit : σ → String → σ × Option H
  /-- Method `SessionRead(sid string) (Session, error)` -/
  SessionRead : σ → String → σ × Option H
  /-- Method `SessionDestroy(sid string) error` -/
  SessionDestroy : σ → String → σ
  /-- Method `Session.Set(key, value interface{}) error` -/
  Set : σ → H → Value → Value → σ
  /-- Method `Session.Get(key interface{}) interface{}`; a nil result is `none` -/
  Get : σ → H → Value → σ × Option Value
  /-- Method `Session.SessionID() string`; the identifier of a session is fixed -/
  SessionID : H → String

/-- Standard library functions called by the manager. -/
structure Stdlib where
  /-- Function `url.QueryEscape` -/
  QueryEscape : String → String
  /-- Function `url.QueryUnescape`: the string result and whether the error is nil -/
  QueryUnescape : String → String × Bool
  /-- Function `base64.URLEncoding.EncodeToString` -/
  EncodeToString : List Nat → String

/-- Struct `Manager` (lines 35-40), without the mutex. -/
structure Manager (σ H : Type) where
  cookieName : String
  provider : Provider σ H
  maxLifeTime : Int

/-- Struct `pcsconfig.SessionData`: the durable lock record. -/
structure SessionData where
  LastAccessedTime : Int
  Lock : String
deriving DecidableEq, Repr

/-- The fields of `http.Cookie` that the code sets. -/
structure Cookie where
  Name : String
  Value : String
  Path : String
  HttpOnly : Bool
  MaxAge : Int
  Expires : Int
deriving DecidableEq, Repr

/-- An `*http.Request`, observed through `r.Cookie(name)`: the value of the
named cookie, or `none` when the call returns `ErrNoCookie`. -/
structure Request where
  Cookie : String → Option String

/-- What one call reads from outside the program. -/
structure Ambient where
  /-- the reading of `time.Now()` -/
  now : Int
  /-- the 32 bytes delivered by `io.ReadFull(rand.Reader, b)`, `none` on error -/
  rnd : Option (List Nat)

/-- Calls made on the provider, recorded in order. -/
inductive Call where
  | init (sid : String)
  | read (sid : String)
  | destroy (sid : String)
deriving DecidableEq, Repr

/-- The mutable state that the manager's methods act on. -/
structure State (σ : Type) where
  /-- the provider's session store -/
  store : σ
  /-- the variable `pcsconfig.SessionMap` -/
  SessionMap : List (String × SessionData)
  /-- number of calls of `pcsconfig.Config.Save()` -/
  saves : Nat
  /-- cookies handed to `http.SetCookie`, oldest first -/
  w : List Cookie
  /-- calls of `SessionInit`, `SessionRead`, `SessionDestroy`, oldest first -/
  calls : List Call
deriving DecidableEq, Repr

/-! ## The Go map operations on `pcsconfig.SessionMap` -/

/-- Lookup `m[k]`: the record stored under `k`, `none` for a nil result. -/
def mapGet (m : List (String × SessionData)) (k : String) : Option SessionData :=
  match m with
  | [] => none
  | (k', d) :: rest => if k' = k then some d else mapGet rest k

/-- Deletion `delete(m, k)`. -/
def mapDelete (m : List (String × SessionData)) (k : String) : List (String × SessionData) :=
  m.filter (fun kv => decide (kv.1 ≠ k))

/-- Assignment `m[k] = &SessionData{...}`: insert or overwrite. -/
def mapPut (m : List (String × SessionData)) (k : String) (d : SessionData) :
    List (String × SessionData) :=
  (k, d) :: mapDelete m k

/-- Assignment to a field through the pointer `m[k]`, for a `k` that is present. -/
def mapModify (m : List (String × SessionData)) (k : String) (f : SessionData → SessionData) :
    List (String × SessionData) :=
  m.map (fun kv => if kv.1 = k then (kv.1, f kv.2) else kv)

/-- The keys of the map. -/
def mapKeys (m : List (String × SessionData)) : List String :=
  m.map Prod.fst

/-! ## Durations -/

/-- Conversion of an integer to the 64 bit signed integer with the same low bits. -/
def wrap64 (x : Int) : Int :=
  (x + 2 ^ 63) % 2 ^ 64 - 2 ^ 63

/-- Constant `time.Second`, in nanoseconds. -/
def Second : Int := 1000000000

/-- Constant `time.Hour`, in nanoseconds. -/
def Hour : Int := 3600 * Second

/-- The duration `time.Second * time.Duration(manager.maxLifeTime)`, a product of
`int64`s, which is also the result of the conversion `int(...)` where `int` is
64 bits wide. -/
def lifeTimeDuration (maxLifeTime : Int) : Int :=
  wrap64 (Second * maxLifeTime)

/-- Method `t.Sub(u)`: the difference, clamped to the range of `time.Duration`. -/
def timeSub (t u : Int) : Int :=
  if t - u > 2 ^ 63 - 1 then 2 ^ 63 - 1
  else if t - u < -(2 ^ 63) then -(2 ^ 63)
  else t - u

/-! ## The manager's methods -/

/-- Method `sessionId` (lines 67-74). -/
def sessionId (L : Stdlib) (a : Ambient) : String :=
  match a.rnd with
  | none => ""
  | some b => L.EncodeToString b

/-- Method `SessionStart` (lines 77-103). -/
def SessionStart {σ H : Type} (L : Stdlib) (m : Manager σ H) (a : Ambient) (r : Request)
    (st : State σ) : State σ × Option H :=
  let create : State σ × Option H :=
    let sid := sessionId L a
    let res := m.provider.SessionInit st.store sid
    let cookie : Cookie :=
      { Name := m.cookieName
        Value := L.QueryEscape sid
        Path := "/"
        HttpOnly := true
        MaxAge := lifeTimeDuration m.maxLifeTime
        Expires := a.now + lifeTimeDuration m.maxLifeTime }
    ({ st with store := res.1, w := st.w ++ [cookie], calls := st.calls ++ [Call.init sid] },
      res.2)
  match r.Cookie m.cookieName with
  | none => create
  | some value =>
    if value = "" then create
    else
      let sid := (L.QueryUnescape value).1
      let res := m.provider.SessionRead st.store sid
      ({ st with store := res.1, calls := st.calls ++ [Call.read sid] }, res.2)

/-- Method `SessionDestroy` (lines 106-124). -/
def SessionDestroy {σ H : Type} (L : Stdlib) (m : Manager σ H) (a : Ambient) (r : Request)
    (st : State σ) : State σ :=
  match r.Cookie m.cookieName with
  | none => st
  | some value =>
    if value = "" then st
    else
      let sid := (L.QueryUnescape value).1
      let cookie : Cookie :=
        { Name := m.cookieName
          Value := ""
          Path := "/"
          HttpOnly := true
          MaxAge := -1
          Expires := a.now }
      { st with
        store := m.provider.SessionDestroy st.store sid
        w := st.w ++ [cookie]
        calls := st.calls ++ [Call.destroy sid] }

/-- The test of line 135: `time.Now().Sub(v.LastAccessedTime) >= time.Hour * 24`. -/
def expired (now : Int) (v : SessionData) : Bool :=
  decide (timeSub now v.LastAccessedTime ≥ Hour * 24)

/-- One iteration of the loop of `Init` (lines 135-140), for the entry `k, v`. -/
def InitStep {σ H : Type} (m : Manager σ H) (a : Ambient) (st : State σ)
    (kv : String × SessionData) : Option (State σ) :=
  if expired a.now kv.2 then
    some { st with SessionMap := mapDelete st.SessionMap kv.1 }
  else
    let res := m.provider.SessionRead st.store kv.1
    match res.2 with
    | none => none
    | some session =>
      some { st with
        store := m.provider.Set res.1 session lockKey (Value.str kv.2.Lock)
        calls := st.calls ++ [Call.read kv.1] }

/-- The loop of `Init` over the entries `kvs` still to be visited. -/
def InitLoop {σ H : Type} (m : Manager σ H) (a : Ambient) :
    List (String × SessionData) → State σ → Option (State σ)
  | [], st => some st
  | kv :: rest, st =>
    match InitStep m a st kv with
    | none => none
    | some st1 => InitLoop m a rest st1

/-- Method `Init` (lines 133-142): the loop visits every entry of the map; the
only entry an iteration removes is the one being visited. -/
def Init {σ H : Type} (m : Manager σ H) (a : Ambient) (st : State σ) : Option (State σ) :=
  InitLoop m a st.SessionMap st

/-- Method `CheckLock` (lines 144-153). -/
def CheckLock {σ H : Type} (L : Stdlib) (m : Manager σ H) (a : Ambient) (r : Request)
    (st : State σ) : Option (State σ × Bool) :=
  let started := SessionStart L m a r st
  match started.2 with
  | none => none
  | some sess =>
    let got := m.provider.Get started.1.store sess lockKey
    let st1 : State σ := { started.1 with store := got.1 }
    if got.2 = some (Value.str "true") ∨ got.2 = none then
      some (st1, true)
    else
      match mapGet st1.SessionMap (m.provider.SessionID sess) with
      | none => none
      | some _ =>
        some ({ st1 with
                SessionMap := mapModify st1.SessionMap (m.provider.SessionID sess)
                  (fun d => { d with LastAccessedTime := a.now }) }, false)

/-- Method `Lock` (lines 155-163). -/
def Lock {σ H : Type} (L : Stdlib) (m : Manager σ H) (a : Ambient) (r : Request)
    (st : State σ) : Option (State σ) :=
  let started := SessionStart L m a r st
  match started.2 with
  | none => none
  | some sess =>
    let st1 : State σ :=
      { started.1 with store := m.provider.Set started.1.store sess lockKey (Value.str "true") }
    match mapGet st1.SessionMap (m.provider.SessionID sess) with
    | none => some st1
    | some _ =>
      some { st1 with
             SessionMap := mapModify st1.SessionMap (m.provider.SessionID sess)
               (fun d => { d with Lock := "true" }) }

/-- Method `UnLock` (lines 165-175). -/
def UnLock {σ H : Type} (L : Stdlib) (m : Manager σ H) (a : Ambient) (r : Request)
    (st : State σ) : Option (State σ) :=
  let started := SessionStart L m a r st
  match started.2 with
  | none => none
  | some sess =>
    some { started.1 with
           store := m.provider.Set started.1.store sess lockKey (Value.str "false")
           SessionMap := mapPut started.1.SessionMap (m.provider.SessionID sess)
             { LastAccessedTime := a.now, Lock := "false" }
           saves := started.1.saves + 1 }

/-- The session identifier that `WebSocketUnLock` works on (lines 180-184):
the unescaped cookie value, or the fixed identifier when the request has no
cookie of the configured name. -/
def webSocketSid {σ H : Type} (L : Stdlib) (m : Manager σ H) (r : Request) : String :=
  match r.Cookie m.cookieName with
  | none => "baidupcsgo"
  | some value => (L.QueryUnescape value).1

/-- Method `WebSocketUnLock` (lines 177-194). -/
def WebSocketUnLock {σ H : Type} (L : Stdlib) (m : Manager σ H) (a : Ambient) (r : Request)
    (st : State σ) : Option (State σ) :=
  let sid := webSocketSid L m r
  let res := m.provider.SessionRead st.store sid
  match res.2 with
  | none => none
  | some session =>
    some { st with
           store := m.provider.Set res.1 session lockKey (Value.str "false")
           SessionMap := mapPut st.SessionMap sid { LastAccessedTime := a.now, Lock := "false" }
           saves := st.saves + 1
           calls := st.calls ++ [Call.read sid] }

/-! ## Sequences of calls -/

/-- The entry points of the manager that a caller can invoke. -/
inductive Op where
  | init
  | start
  | lock
  | unlock
  | wsUnlock
  | check
  | destroy
deriving DecidableEq, Repr

/-- One call of an entry point; `none` when the call panics. -/
def step {σ H : Type} (L : Stdlib) (m : Manager σ H) (o : Op) (a : Ambient) (r : Request)
    (st : State σ) : Option (State σ) :=
  match o with
  | Op.init => Init m a st
  | Op.start => some (SessionStart L m a r st).1
  | Op.lock => Lock L m a r st
  | Op.unlock => UnLock L m a r st
  | Op.wsUnlock => WebSocketUnLock L m a r st
  | Op.check => (CheckLock L m a r st).map Prod.fst
  | Op.destroy => some (SessionDestroy L m a r st)

/-- A sequence of calls, each with its own clock reading and request. -/
def run {σ H : Type} (L : Stdlib) (m : Manager σ H) :
    List (Op × Ambient × Request) → State σ → Option (State σ)
  | [], st => some st
  | (o, a, r) :: rest, st =>
    match step L m o a r st with
    | none => none
    | some st1 => run L m rest st1

/-! ## Contracts of a provider -/

/-- A `Get` that follows a `Set` on the same handle and key observes the value. -/
def GetAfterSet {σ H : Type} (P : Provider σ H) : Prop :=
  ∀ s h k v, (P.Get (P.Set s h k v) h k).2 = some v

/-- The provider never hands out a nil session. -/
def NeverNil {σ H : Type} (P : Provider σ H) : Prop :=
  ∀ s sid, (P.SessionInit s sid).2 ≠ none ∧ (P.SessionRead s sid).2 ≠ none

/-- The session read for an identifier reports that identifier. -/
def ReadId {σ H : Type} (P : Provider σ H) : Prop :=
  ∀ s sid h, (P.SessionRead s sid).2 = some h → P.SessionID h = sid

/-- Reading an identifier again returns the session stored under it: a value
set through the handle of an earlier read is seen through the handle of the
next read of the same identifier, which names the same session. -/
def ReadsBack {σ H : Type} (P : Provider σ H) : Prop :=
  ∀ s sid h k v, (P.SessionRead s sid).2 = some h →
    ∃ h2, (P.SessionRead (P.Set (P.SessionRead s sid).1 h k v) sid).2 = some h2 ∧
      (P.Get (P.SessionRead (P.Set (P.SessionRead s sid).1 h k v) sid).1 h2 k).2 = some v ∧
      P.SessionID h2 = P.SessionID h

/-- The effect of a kept record on the session store in `Init`: the session
read for the record's key receives the record's lock flag. -/
def copyLock {σ H : Type} (P : Provider σ H) (s : σ) (kv : String × SessionData) : σ :=
  match (P.SessionRead s kv.1).2 with
  | none => s
  | some session => P.Set (P.SessionRead s kv.1).1 session lockKey (Value.str kv.2.Lock)

/-! ## An in-memory provider -/

/-- The store of the in-memory provider: the entries of each session, by identifier. -/
abbrev MemStore := List (String × List (Value × Value))

/-- The entries of the session stored under `sid`. -/
def memFind (s : MemStore) (sid : String) : Option (List (Value × Value)) :=
  match s with
  | [] => none
  | (sid', kvs) :: rest => if sid' = sid then some kvs else memFind rest sid

/-- The value stored under key `k` in a session's entries. -/
def kvGet (kvs : List (Value × Value)) (k : Value) : Option Value :=
  match kvs with
  | [] => none
  | (k', v) :: rest => if k' = k then some v else kvGet rest k

/-- Modelled from the spec: the storage backend behind the `Provider` and
`Session` interfaces, whose implementation is not part of `session.go`.
`Init` creates a new empty session under the identifier, `Read` fetches the
session and creates it when absent, `Destroy` removes it and is idempotent,
and a `Get` that follows a `Set` observes the value.  A handle is the
identifier of its session. -/
def memProvider : Provider MemStore String where
  SessionInit := fun s sid => ((sid, []) :: s.filter (fun e => decide (e.1 ≠ sid)), some sid)
  SessionRead := fun s sid =>
    match memFind s sid with
    | some _ => (s, some sid)
    | none => ((sid, []) :: s.filter (fun e => decide (e.1 ≠ sid)), some sid)
  SessionDestroy := fun s sid => s.filter (fun e => decide (e.1 ≠ sid))
  Set := fun s h k v =>
    match memFind s h with
    | some kvs => (h, (k, v) :: kvs.filter (fun e => decide (e.1 ≠ k)))
        :: s.filter (fun e => decide (e.1 ≠ h))
    | none => (h, [(k, v)]) :: s
  Get := fun s h k => (s, (memFind s h).bind (fun kvs => kvGet kvs k))
  SessionID := fun h => h

/-- A manager over the in-memory provider. -/
def memManager (cookieName : String) (maxLifeTime : Int) : Manager MemStore String :=
  { cookieName := cookieName, provider := memProvider, maxLifeTime := maxLifeTime }

/-- The state in which both the session store and the durable store are empty. -/
def emptyState : State MemStore :=
  { store := [], SessionMap := [], saves := 0, w := [], calls := [] }

/-- A request whose cookies are the given name and value pairs. -/
def requestWith (cookies : List (String × String)) : Request where
  Cookie := fun name => (cookies.find? (fun c => decide (c.1 = name))).map Prod.snd

/-- The condition under which the blocked branch of `CheckLock` finds the
record it updates: every session of the in-memory store whose `"lock"` value is
neither nil nor the string `"true"` has a record in the durable store. -/
def RecordForBlocked (st : State MemStore) : Prop :=
  ∀ sid v, (memProvider.Get st.store sid lockKey).2 = some v → v ≠ Value.str "true" →
    mapGet st.SessionMap sid ≠ none

/-! ## The standard library functions -/

/-- The 64 characters of the URL-safe base64 alphabet. -/
def b64Alphabet : List Char :=
  "ABCDEFGHIJKLMNOPQRSTUVWXYZabcdefghijklmnopqrstuvwxyz0123456789-_".data

/-- The character of a 6 bit group. -/
def b64Char (n : Nat) : Char :=
  b64Alphabet.getD (n % 64) 'A'

/-- Padded base64 encoding of a byte sequence. -/
def b64Encode : List Nat → List Char
  | [] => []
  | [x] => [b64Char (x / 4), b64Char (x % 4 * 16), '=', '=']
  | [x, y] => [b64Char (x / 4), b64Char (x % 4 * 16 + y / 16), b64Char (y % 16 * 4), '=']
  | x :: y :: z :: rest =>
    b64Char (x / 4) :: b64Char (x % 4 * 16 + y / 16) :: b64Char (y % 16 * 4 + z / 64)
      :: b64Char (z % 64) :: b64Encode rest

/-- Upper-case hexadecimal digit. -/
def hexDigit (n : Nat) : Char :=
  "0123456789ABCDEF".data.getD (n % 16) '0'

/-- The UTF-8 bytes of a character. -/
def utf8Bytes (c : Char) : List Nat :=
  let n := c.toNat
  if n < 128 then [n]
  else if n < 2048 then [192 + n / 64, 128 + n % 64]
  else if n < 65536 then [224 + n / 4096, 128 + n / 64 % 64, 128 + n % 64]
  else [240 + n / 262144, 128 + n / 4096 % 64, 128 + n / 64 % 64, 128 + n % 64]

/-- Characters that a query component carries unescaped. -/
def unreserved (c : Char) : Bool :=
  c.isAlphanum || c = '-' || c = '_' || c = '.' || c = '~'

/-- Escaping of one character of a query component. -/
def escapeChar (c : Char) : List Char :=
  if c = ' ' then ['+']
  else if unreserved c then [c]
  else (utf8Bytes c).flatMap (fun b => ['%', hexDigit (b / 16), hexDigit (b % 16)])

/-- Value of a hexadecimal digit. -/
def unhex (c : Char) : Option Nat :=
  if '0' ≤ c ∧ c ≤ '9' then some (c.toNat - 48)
  else if 'a' ≤ c ∧ c ≤ 'f' then some (c.toNat - 87)
  else if 'A' ≤ c ∧ c ≤ 'F' then some (c.toNat - 55)
  else none

/-- Unescaping of a query component; `none` for a malformed escape. -/
def unescapeChars : List Char → Option (List Char)
  | [] => some []
  | '%' :: a :: b :: rest =>
    match unhex a, unhex b, unescapeChars rest with
    | some x, some y, some out => some (Char.ofNat (16 * x + y) :: out)
    | _, _, _ => none
  | '%' :: _ => none
  | '+' :: rest => (unescapeChars rest).map (fun out => ' ' :: out)
  | c :: rest => (unescapeChars rest).map (fun out => c :: out)

/-- The library functions as Go defines them, on strings whose unescaped form
is ASCII (an unescaped byte above 127 is rendered as the character with that
code).  On error `url.QueryUnescape` returns the empty string. -/
def goLib : Stdlib where
  QueryEscape := fun s => String.mk (s.data.flatMap escapeChar)
  QueryUnescape := fun s =>
    match unescapeChars s.data with
    | some out => (String.mk out, true)
    | none => ("", false)
  EncodeToString := fun b => String.mk (b64Encode b)

/-! ## Lemmas on the map operations -/

theorem mapGet_nil (k : String) : mapGet [] k = none := rfl

theorem mapGet_cons (x : String) (d : SessionData) (rest : List (String × SessionData))
    (k : String) : mapGet ((x, d) :: rest) k = if x = k then some d else mapGet rest k := rfl

theorem mapGet_mapDelete (m : List (String × SessionData)) (k k' : String) :
    mapGet (mapDelete m k) k' = if k' = k then none else mapGet m k' := by
  induction m with
  | nil => simp [mapDelete, mapGet_nil]
  | cons kv rest ih =>
    obtain ⟨x, d⟩ := kv
    unfold mapDelete at ih ⊢
    rw [List.filter_cons]
    by_cases hx : x = k
    · subst hx
      simp only [ne_eq, not_true_eq_false, decide_False, Bool.false_eq_true, if_false,
        mapGet_cons]
      rw [ih]
      by_cases hk : k' = x
      · simp [hk]
      · have hk2 : ¬ x = k' := fun h => hk h.symm
        simp [hk, hk2]
    · simp only [ne_eq, hx, not_false_eq_true, decide_True, if_true, mapGet_cons]
      rw [ih]
      by_cases hxk : x = k'
      · have hk : ¬ k' = k := fun h => hx (hxk.trans h)
        simp [hxk, hk]
      · simp [hxk]

theorem mapGet_mapPut (m : List (String × SessionData)) (k k' : String) (d : SessionData) :
    mapGet (mapPut m k d) k' = if k' = k then some d else mapGet m k' := by
  unfold mapPut
  rw [mapGet_cons, mapGet_mapDelete]
  by_cases hk : k' = k
  · simp [hk]
  · have hk2 : ¬ k = k' := fun h => hk h.symm
    simp [hk, hk2]

theorem mapGet_mapModify (m : List (String × SessionData)) (k k' : String)
    (f : SessionData → SessionData) :
    mapGet (mapModify m k f) k' = if k' = k then (mapGet m k).map f else mapGet m k' := by
  induction m with
  | nil => simp [mapModify, mapGet_nil]
  | cons kv rest ih =>
    obtain ⟨x, d⟩ := kv
    unfold mapModify at ih ⊢
    rw [List.map_cons]
    by_cases hx : x = k
    · subst hx
      simp only [if_true, mapGet_cons]
      rw [ih]
      by_cases hk : k' = x
      · simp [hk]
      · have hk2 : ¬ x = k' := fun h => hk h.symm
        simp [hk, hk2]
    · simp only [hx, if_false, mapGet_cons]
      rw [ih]
      by_cases hxk : x = k'
      · have hk : ¬ k' = k := fun h => hx (hxk.trans h)
        simp [hxk, hk]
      · simp [hxk]

theorem mapKeys_mapModify (m : List (String × SessionData)) (k : String)
    (f : SessionData → SessionData) : mapKeys (mapModify m k f) = mapKeys m := by
  unfold mapKeys mapModify
  rw [List.map_map]
  apply List.map_congr_left
  intro kv _
  by_cases h : kv.1 = k <;> simp [h]

/-! ## The in-memory provider meets the contracts -/

theorem memFind_cons (sid : String) (kvs : List (Value × Value)) (rest : MemStore)
    (k : String) : memFind ((sid, kvs) :: rest) k = if sid = k then some kvs else memFind rest k :=
  rfl

theorem kvGet_cons (k' v : Value) (rest : List (Value × Value)) (k : Value) :
    kvGet ((k', v) :: rest) k = if k' = k then some v else kvGet rest k :=
  rfl

theorem memProvider_neverNil : NeverNil memProvider := by
  intro s sid
  constructor
  · simp [memProvider]
  · simp only [memProvider]
    cases memFind s sid <;> simp

theorem memProvider_getAfterSet : GetAfterSet memProvider := by
  intro s h k v
  simp only [memProvider]
  cases memFind s h <;> simp [memFind_cons, kvGet_cons]

theorem memProvider_readId : ReadId memProvider := by
  intro s sid h hr
  simp only [memProvider] at hr ⊢
  cases hf : memFind s sid <;> simp [hf] at hr <;> exact hr.symm

theorem memProvider_readsBack : ReadsBack memProvider := by
  intro s sid h k v hr
  have hh : h = sid := by
    simp only [memProvider] at hr
    cases hf : memFind s sid <;> simp [hf] at hr <;> exact hr.symm
  subst hh
  refine ⟨h, ?_⟩
  simp only [memProvider]
  cases hf : memFind s h <;> simp [hf, memFind_cons, kvGet_cons]

/-! ## Lemmas on `SessionStart` -/

theorem SessionStart_SessionMap {σ H : Type} (L : Stdlib) (m : Manager σ H) (a : Ambient)
    (r : Request) (st : State σ) : (SessionStart L m a r st).1.SessionMap = st.SessionMap := by
  unfold SessionStart
  cases r.Cookie m.cookieName with
  | none => rfl
  | some value =>
    by_cases hv : value = ""
    · simp [hv]
    · simp [hv]

theorem SessionStart_some {σ H : Type} (L : Stdlib) (m : Manager σ H) (a : Ambient)
    (r : Request) (st : State σ) (hnil : NeverNil m.provider) :
    ∃ sess, (SessionStart L m a r st).2 = some sess := by
  have hne : (SessionStart L m a r st).2 ≠ none := by
    unfold SessionStart
    cases r.Cookie m.cookieName with
    | none => exact (hnil _ _).1
    | some value =>
      by_cases hv : value = ""
      · simpa [hv] using (hnil _ _).1
      · simpa [hv] using (hnil _ _).2
  exact Option.ne_none_iff_exists'.mp hne

theorem SessionStart_of_cookie {σ H : Type} (L : Stdlib) (m : Manager σ H) (a : Ambient)
    (r : Request) (st : State σ) (value : String) (hc : r.Cookie m.cookieName = some value)
    (hv : value ≠ "") :
    SessionStart L m a r st =
      ({ st with
         store := (m.provider.SessionRead st.store (L.QueryUnescape value).1).1
         calls := st.calls ++ [Call.read (L.QueryUnescape value).1] },
        (m.provider.SessionRead st.store (L.QueryUnescape value).1).2) := by
  unfold SessionStart
  simp [hc, hv]

/-! ## The lock coordinator -/

/-- The return value of `CheckLock` as a function of the value `val` stored
under `"lock"`: `true` when `val` is nil or the string `"true"`; otherwise
`false` when the durable store has a record for the session, and a panic when
it has none. -/
theorem CheckLock_cases {σ H : Type} (L : Stdlib) (m : Manager σ H) (a : Ambient)
    (r : Request) (st : State σ) (sess : H) (hs : (SessionStart L m a r st).2 = some sess) :
    let val := (m.provider.Get (SessionStart L m a r st).1.store sess lockKey).2
    ((val = none ∨ val = some (Value.str "true")) →
        ∃ st', CheckLock L m a r st = some (st', true)) ∧
    (¬ (val = none ∨ val = some (Value.str "true")) →
        mapGet st.SessionMap (m.provider.SessionID sess) ≠ none →
        ∃ st', CheckLock L m a r st = some (st', false)) ∧
    (¬ (val = none ∨ val = some (Value.str "true")) →
        mapGet st.SessionMap (m.provider.SessionID sess) = none →
        CheckLock L m a r st = none) := by
  intro val
  have hmap := SessionStart_SessionMap L m a r st
  refine ⟨?_, ?_, ?_⟩
  · intro hval
    have hval2 : val = some (Value.str "true") ∨ val = none := hval.symm
    unfold CheckLock
    simp only [hs]
    rw [if_pos hval2]
    exact ⟨_, rfl⟩
  · intro hval hrec
    have hval2 : ¬ (val = some (Value.str "true") ∨ val = none) := fun h => hval h.symm
    obtain ⟨d, hd⟩ := Option.ne_none_iff_exists'.mp hrec
    unfold CheckLock
    simp only [hs]
    rw [if_neg hval2]
    simp only [hmap, hd]
    exact ⟨_, rfl⟩
  · intro hval hrec
    have hval2 : ¬ (val = some (Value.str "true") ∨ val = none) := fun h => hval h.symm
    unfold CheckLock
    simp only [hs]
    rw [if_neg hval2]
    simp only [hmap, hrec]

/-- C1: `WebSocketUnLock` on a request without cookie, followed 25 hours later
by `Init`, leaves the session `baidupcsgo` with the `"lock"` value `"false"` and
no durable record; on that session `CheckLock` does not return `false`: the
assignment of line 151 goes through a nil pointer and the call panics. -/
theorem CheckLock_false_without_record_panics :
    run goLib (memManager "bdpan" 3600)
        [(Op.wsUnlock, ⟨0, none⟩, requestWith []),
          (Op.init, ⟨90000000000000, none⟩, requestWith [])] emptyState
      = some { store := [("baidupcsgo", [(lockKey, Value.str "false")])], SessionMap := [],
               saves := 1, w := [], calls := [Call.read "baidupcsgo"] } ∧
      (memProvider.Get [("baidupcsgo", [(lockKey, Value.str "false")])] "baidupcsgo"
        lockKey).2 = some (Value.str "false") ∧
      CheckLock goLib (memManager "bdpan" 3600) ⟨90000000000001, none⟩
        (requestWith [("bdpan", "baidupcsgo")])
        { store := [("baidupcsgo", [(lockKey, Value.str "false")])], SessionMap := [],
          saves := 1, w := [], calls := [Call.read "baidupcsgo"] } = none :=
  ⟨rfl, rfl, rfl⟩

/-- C2 (as stated, refuted): after `Lock` on a session with a durable record,
the session's `"lock"` value and the record's lock field are both the string
`"true"`, not `"false"`. -/
theorem Lock_does_not_write_false :
    ∃ st', Lock goLib (memManager "bdpan" 3600) ⟨5, none⟩ (requestWith [("bdpan", "s")])
        { store := [], SessionMap := [("s", { LastAccessedTime := 0, Lock := "false" })],
          saves := 0, w := [], calls := [] } = some st' ∧
      (memProvider.Get st'.store "s" lockKey).2 = some (Value.str "true") ∧
      (memProvider.Get st'.store "s" lockKey).2 ≠ some (Value.str "false") ∧
      mapGet st'.SessionMap "s" = some { LastAccessedTime := 0, Lock := "true" } ∧
      mapGet st'.SessionMap "s" ≠ some { LastAccessedTime := 0, Lock := "false" } :=
  ⟨_, rfl, rfl, by decide, rfl, by decide⟩

/-- C2 (amended): `Lock` sets the `"lock"` key of the started session to the
string `"true"`; if a durable record exists for the session's identifier its
lock field becomes `"true"` and its timestamp is kept; if none exists the
durable store is unchanged; in both cases the key set of the durable store
and every other record are unchanged. -/
theorem Lock_writes_true {σ H : Type} (L : Stdlib) (m : Manager σ H) (a : Ambient)
    (r : Request) (st : State σ) (hnil : NeverNil m.provider)
    (hgs : GetAfterSet m.provider) :
    ∃ st' sess, Lock L m a r st = some st' ∧ (SessionStart L m a r st).2 = some sess ∧
      (m.provider.Get st'.store sess lockKey).2 = some (Value.str "true") ∧
      (∀ d, mapGet st.SessionMap (m.provider.SessionID sess) = some d →
        mapGet st'.SessionMap (m.provider.SessionID sess) = some { d with Lock := "true" }) ∧
      (mapGet st.SessionMap (m.provider.SessionID sess) = none →
        st'.SessionMap = st.SessionMap) ∧
      mapKeys st'.SessionMap = mapKeys st.SessionMap ∧
      (∀ k, k ≠ m.provider.SessionID sess → mapGet st'.SessionMap k = mapGet st.SessionMap k) := by
  obtain ⟨sess, hs⟩ := SessionStart_some L m a r st hnil
  have hmap := SessionStart_SessionMap L m a r st
  rcases Option.eq_none_or_eq_some (mapGet st.SessionMap (m.provider.SessionID sess)) with
    hrec | ⟨d0, hrec⟩
  · refine ⟨{ (SessionStart L m a r st).1 with
              store := m.provider.Set (SessionStart L m a r st).1.store sess lockKey
                (Value.str "true") }, sess, ?_, hs, hgs _ _ _ _, ?_, fun _ => hmap, ?_, ?_⟩
    · unfold Lock
      simp only [hs, hmap, hrec]
    · intro d hd
      rw [hrec] at hd
      cases hd
    · show mapKeys (SessionStart L m a r st).1.SessionMap = mapKeys st.SessionMap
      rw [hmap]
    · intro k _
      show mapGet (SessionStart L m a r st).1.SessionMap k = mapGet st.SessionMap k
      rw [hmap]
  · refine ⟨{ (SessionStart L m a r st).1 with
              store := m.provider.Set (SessionStart L m a r st).1.store sess lockKey
                (Value.str "true")
              SessionMap := mapModify st.SessionMap (m.provider.SessionID sess)
                (fun d => { d with Lock := "true" }) }, sess, ?_, hs, hgs _ _ _ _, ?_, ?_, ?_, ?_⟩
    · unfold Lock
      simp only [hs, hmap, hrec]
    · intro d hd
      rw [hrec] at hd
      cases hd
      dsimp only
      rw [mapGet_mapModify, if_pos rfl, hrec]
      rfl
    · intro hn
      rw [hrec] at hn
      cases hn
    · dsimp only
      exact mapKeys_mapModify st.SessionMap _ _
    · intro k hk
      dsimp only
      rw [mapGet_mapModify, if_neg hk]

/-- Witness of `Lock_writes_true` on the in-memory provider. -/
theorem Lock_writes_true_witness :
    NeverNil memProvider ∧ GetAfterSet memProvider ∧
      ∃ st' sess, Lock goLib (memManager "bdpan" 3600) ⟨5, none⟩
          (requestWith [("bdpan", "s")]) emptyState = some st' ∧
        (SessionStart goLib (memManager "bdpan" 3600) ⟨5, none⟩
          (requestWith [("bdpan", "s")]) emptyState).2 = some sess ∧
        (memProvider.Get st'.store sess lockKey).2 = some (Value.str "true") :=
  ⟨memProvider_neverNil, memProvider_getAfterSet,
    (Lock_writes_true goLib (memManager "bdpan" 3600) ⟨5, none⟩ (requestWith [("bdpan", "s")])
      emptyState memProvider_neverNil memProvider_getAfterSet).imp
      (fun _ h => h.imp (fun _ h2 => ⟨h2.1, h2.2.1, h2.2.2.1⟩))⟩

theorem Lock_result {σ H : Type} (L : Stdlib) (m : Manager σ H) (a : Ambient) (r : Request)
    (st : State σ) (sess : H) (hs : (SessionStart L m a r st).2 = some sess) :
    Lock L m a r st = some
      { (SessionStart L m a r st).1 with
        store := m.provider.Set (SessionStart L m a r st).1.store sess lockKey (Value.str "true")
        SessionMap :=
          if mapGet st.SessionMap (m.provider.SessionID sess) = none then st.SessionMap
          else mapModify st.SessionMap (m.provider.SessionID sess)
            (fun d => { d with Lock := "true" }) } := by
  have hmap := SessionStart_SessionMap L m a r st
  rcases Option.eq_none_or_eq_some (mapGet st.SessionMap (m.provider.SessionID sess)) with
    hrec | ⟨d0, hrec⟩
  · unfold Lock
    simp only [hs, hmap, hrec, if_true]
  · unfold Lock
    simp only [hs, hmap, hrec]
    simp

theorem UnLock_result {σ H : Type} (L : Stdlib) (m : Manager σ H) (a : Ambient) (r : Request)
    (st : State σ) (sess : H) (hs : (SessionStart L m a r st).2 = some sess) :
    UnLock L m a r st = some
      { (SessionStart L m a r st).1 with
        store := m.provider.Set (SessionStart L m a r st).1.store sess lockKey (Value.str "false")
        SessionMap := mapPut st.SessionMap (m.provider.SessionID sess)
          { LastAccessedTime := a.now, Lock := "false" }
        saves := (SessionStart L m a r st).1.saves + 1 } := by
  have hmap := SessionStart_SessionMap L m a r st
  unfold UnLock
  simp only [hs, hmap]

theorem WebSocketUnLock_result {σ H : Type} (L : Stdlib) (m : Manager σ H) (a : Ambient)
    (r : Request) (st : State σ) (sess : H)
    (hs : (m.provider.SessionRead st.store (webSocketSid L m r)).2 = some sess) :
    WebSocketUnLock L m a r st = some
      { st with
        store := m.provider.Set (m.provider.SessionRead st.store (webSocketSid L m r)).1 sess
          lockKey (Value.str "false")
        SessionMap := mapPut st.SessionMap (webSocketSid L m r)
          { LastAccessedTime := a.now, Lock := "false" }
        saves := st.saves + 1
        calls := st.calls ++ [Call.read (webSocketSid L m r)] } := by
  unfold WebSocketUnLock
  simp only [hs]

/-- C3: `UnLock` returns; it sets the `"lock"` key of the started session to
`"false"`, leaves under that session's identifier the durable record with the
current time and lock `"false"`, whether or not a record existed before, and
leaves the record of every other identifier unchanged. -/
theorem UnLock_writes_record {σ H : Type} (L : Stdlib) (m : Manager σ H) (a : Ambient)
    (r : Request) (st : State σ) (hnil : NeverNil m.provider)
    (hgs : GetAfterSet m.provider) :
    ∃ st' sess, UnLock L m a r st = some st' ∧ (SessionStart L m a r st).2 = some sess ∧
      (m.provider.Get st'.store sess lockKey).2 = some (Value.str "false") ∧
      mapGet st'.SessionMap (m.provider.SessionID sess)
        = some { LastAccessedTime := a.now, Lock := "false" } ∧
      (∀ k, k ≠ m.provider.SessionID sess → mapGet st'.SessionMap k = mapGet st.SessionMap k) := by
  obtain ⟨sess, hs⟩ := SessionStart_some L m a r st hnil
  refine ⟨_, sess, UnLock_result L m a r st sess hs, hs, hgs _ _ _ _, ?_, ?_⟩
  · dsimp only
    rw [mapGet_mapPut, if_pos rfl]
  · intro k hk
    dsimp only
    rw [mapGet_mapPut, if_neg hk]

/-- Witness of `UnLock_writes_record` on the in-memory provider, from a state
in which the session has an older record. -/
theorem UnLock_writes_record_witness :
    NeverNil memProvider ∧ GetAfterSet memProvider ∧
      ∃ st' sess, UnLock goLib (memManager "bdpan" 3600) ⟨9, none⟩
          (requestWith [("bdpan", "s")])
          { store := [], SessionMap := [("s", { LastAccessedTime := 1, Lock := "true" })],
            saves := 0, w := [], calls := [] } = some st' ∧
        (memProvider.Get st'.store sess lockKey).2 = some (Value.str "false") ∧
        mapGet st'.SessionMap (memProvider.SessionID sess)
          = some { LastAccessedTime := 9, Lock := "false" } :=
  ⟨memProvider_neverNil, memProvider_getAfterSet,
    (UnLock_writes_record goLib (memManager "bdpan" 3600) ⟨9, none⟩
      (requestWith [("bdpan", "s")])
      { store := [], SessionMap := [("s", { LastAccessedTime := 1, Lock := "true" })],
        saves := 0, w := [], calls := [] }
      memProvider_neverNil memProvider_getAfterSet).imp
      (fun _ h => h.imp (fun _ h2 => ⟨h2.1, h2.2.2.1, h2.2.2.2.1⟩))⟩

/-- C5: each of `Lock`, `UnLock` and `WebSocketUnLock` returns, and in the
state it leaves, if the durable store holds a record for the identifier of the
session it worked on, the record's lock field is the value stored under the
session's `"lock"` key. -/
theorem lock_flags_agree {σ H : Type} (L : Stdlib) (m : Manager σ H) (a : Ambient)
    (r : Request) (st : State σ) (hnil : NeverNil m.provider)
    (hgs : GetAfterSet m.provider) (hid : ReadId m.provider) :
    (∃ st' sess, Lock L m a r st = some st' ∧ (SessionStart L m a r st).2 = some sess ∧
      ∀ d, mapGet st'.SessionMap (m.provider.SessionID sess) = some d →
        (m.provider.Get st'.store sess lockKey).2 = some (Value.str d.Lock)) ∧
    (∃ st' sess, UnLock L m a r st = some st' ∧ (SessionStart L m a r st).2 = some sess ∧
      ∀ d, mapGet st'.SessionMap (m.provider.SessionID sess) = some d →
        (m.provider.Get st'.store sess lockKey).2 = some (Value.str d.Lock)) ∧
    (∃ st' sess, WebSocketUnLock L m a r st = some st' ∧
      (m.provider.SessionRead st.store (webSocketSid L m r)).2 = some sess ∧
      ∀ d, mapGet st'.SessionMap (m.provider.SessionID sess) = some d →
        (m.provider.Get st'.store sess lockKey).2 = some (Value.str d.Lock)) := by
  obtain ⟨sess, hs⟩ := SessionStart_some L m a r st hnil
  obtain ⟨wsess, hws⟩ :=
    Option.ne_none_iff_exists'.mp (hnil st.store (webSocketSid L m r)).2
  refine ⟨⟨_, sess, Lock_result L m a r st sess hs, hs, ?_⟩,
    ⟨_, sess, UnLock_result L m a r st sess hs, hs, ?_⟩,
    ⟨_, wsess, WebSocketUnLock_result L m a r st wsess hws, hws, ?_⟩⟩
  · intro d hd
    dsimp only at hd ⊢
    rw [hgs]
    rcases Option.eq_none_or_eq_some (mapGet st.SessionMap (m.provider.SessionID sess)) with
      hrec | ⟨d0, hrec⟩
    · rw [if_pos hrec, hrec] at hd
      cases hd
    · have hne : ¬ mapGet st.SessionMap (m.provider.SessionID sess) = none := by
        rw [hrec]
        exact fun h => Option.noConfusion h
      rw [if_neg hne, mapGet_mapModify, if_pos rfl, hrec] at hd
      cases hd
      rfl
  · intro d hd
    dsimp only at hd ⊢
    rw [hgs]
    rw [mapGet_mapPut, if_pos rfl] at hd
    cases hd
    rfl
  · intro d hd
    dsimp only at hd ⊢
    rw [hgs]
    rw [hid _ _ _ hws, mapGet_mapPut, if_pos rfl] at hd
    cases hd
    rfl

/-- Witness of `lock_flags_agree` on the in-memory provider, from a state in
which the session has a durable record. -/
theorem lock_flags_agree_witness :
    NeverNil memProvider ∧ GetAfterSet memProvider ∧ ReadId memProvider ∧
      ∃ st' sess, Lock goLib (memManager "bdpan" 3600) ⟨9, none⟩
          (requestWith [("bdpan", "s")])
          { store := [], SessionMap := [("s", { LastAccessedTime := 1, Lock := "false" })],
            saves := 0, w := [], calls := [] } = some st' ∧
        ∀ d, mapGet st'.SessionMap (memProvider.SessionID sess) = some d →
          (memProvider.Get st'.store sess lockKey).2 = some (Value.str d.Lock) :=
  ⟨memProvider_neverNil, memProvider_getAfterSet, memProvider_readId,
    (lock_flags_agree goLib (memManager "bdpan" 3600) ⟨9, none⟩
      (requestWith [("bdpan", "s")])
      { store := [], SessionMap := [("s", { LastAccessedTime := 1, Lock := "false" })],
        saves := 0, w := [], calls := [] }
      memProvider_neverNil memProvider_getAfterSet memProvider_readId).1.imp
      (fun _ h => h.imp (fun _ h2 => ⟨h2.1, h2.2.2⟩))⟩

theorem CheckLock_blocked_result {σ H : Type} (L : Stdlib) (m : Manager σ H) (a : Ambient)
    (r : Request) (st : State σ) (sess : H) (d : SessionData)
    (hs : (SessionStart L m a r st).2 = some sess)
    (hval : (m.provider.Get (SessionStart L m a r st).1.store sess lockKey).2
      = some (Value.str "false"))
    (hrec : mapGet st.SessionMap (m.provider.SessionID sess) = some d) :
    CheckLock L m a r st = some
      ({ (SessionStart L m a r st).1 with
         store := (m.provider.Get (SessionStart L m a r st).1.store sess lockKey).1
         SessionMap := mapModify st.SessionMap (m.provider.SessionID sess)
           (fun d => { d with LastAccessedTime := a.now }) }, false) := by
  have hmap := SessionStart_SessionMap L m a r st
  have hno : ¬ ((m.provider.Get (SessionStart L m a r st).1.store sess lockKey).2
      = some (Value.str "true") ∨
      (m.provider.Get (SessionStart L m a r st).1.store sess lockKey).2 = none) := by
    rw [hval]
    intro h
    rcases h with h | h
    · exact absurd (Value.str.inj (Option.some.inj h)) (by decide)
    · exact Option.noConfusion h
  unfold CheckLock
  simp only [hs]
  rw [if_neg hno]
  simp only [hmap, hrec]

/-- C4 (as stated, refuted): after `UnLock` on a request with the session
cookie `s`, `CheckLock` on a request with the same cookie returns `false`,
not `true`. -/
theorem UnLock_then_CheckLock_not_true :
    ∃ st1 st2, UnLock goLib (memManager "bdpan" 3600) ⟨0, none⟩
        (requestWith [("bdpan", "s")]) emptyState = some st1 ∧
      CheckLock goLib (memManager "bdpan" 3600) ⟨7, none⟩
        (requestWith [("bdpan", "s")]) st1 = some (st2, false) ∧
      (∀ st3, CheckLock goLib (memManager "bdpan" 3600) ⟨7, none⟩
        (requestWith [("bdpan", "s")]) st1 ≠ some (st3, true)) ∧
      mapGet st2.SessionMap "s" = some { LastAccessedTime := 7, Lock := "false" } := by
  refine ⟨_, _, rfl, rfl, ?_, rfl⟩
  intro st3 h
  have h2 : CheckLock goLib (memManager "bdpan" 3600) ⟨7, none⟩
      (requestWith [("bdpan", "s")])
      { store := [("s", [(lockKey, Value.str "false")])],
        SessionMap := [("s", { LastAccessedTime := 0, Lock := "false" })],
        saves := 1, w := [], calls := [Call.read "s"] } = some (st3, true) := h
  have h3 : CheckLock goLib (memManager "bdpan" 3600) ⟨7, none⟩
      (requestWith [("bdpan", "s")])
      { store := [("s", [(lockKey, Value.str "false")])],
        SessionMap := [("s", { LastAccessedTime := 0, Lock := "false" })],
        saves := 1, w := [], calls := [Call.read "s"] }
      = some ({ store := [("s", [(lockKey, Value.str "false")])],
                SessionMap := [("s", { LastAccessedTime := 7, Lock := "false" })],
                saves := 1, w := [], calls := [Call.read "s", Call.read "s"] }, false) := rfl
  rw [h3] at h2
  have h4 : false = true := congrArg Prod.snd (Option.some.inj h2)
  exact Bool.noConfusion h4

/-- C4 (amended): with a provider that never returns a nil session and whose
read returns the session stored under the identifier, after `UnLock` on a
request carrying a non-empty session cookie, `CheckLock` on a request carrying
the same cookie returns `false`, and the durable record of the session has
lock `"false"` and the time of the `CheckLock` call as its timestamp. -/
theorem UnLock_then_CheckLock_false {σ H : Type} (L : Stdlib) (m : Manager σ H)
    (a a2 : Ambient) (r r2 : Request) (st : State σ) (value : String)
    (hc : r.Cookie m.cookieName = some value) (hc2 : r2.Cookie m.cookieName = some value)
    (hv : value ≠ "") (hnil : NeverNil m.provider) (hrb : ReadsBack m.provider) :
    ∃ st1 st2 sess, UnLock L m a r st = some st1 ∧ (SessionStart L m a r st).2 = some sess ∧
      CheckLock L m a2 r2 st1 = some (st2, false) ∧
      mapGet st2.SessionMap (m.provider.SessionID sess)
        = some { LastAccessedTime := a2.now, Lock := "false" } := by
  obtain ⟨sess, hs⟩ := SessionStart_some L m a r st hnil
  have hstart := SessionStart_of_cookie L m a r st value hc hv
  have hs' : (m.provider.SessionRead st.store (L.QueryUnescape value).1).2 = some sess := by
    rw [hstart] at hs
    exact hs
  obtain ⟨h2, hread2, hget2, hid2⟩ := hrb st.store (L.QueryUnescape value).1 sess lockKey
    (Value.str "false") hs'
  have hU := UnLock_result L m a r st sess hs
  have key : ∀ st1 : State σ,
      st1.store = m.provider.Set (m.provider.SessionRead st.store (L.QueryUnescape value).1).1
        sess lockKey (Value.str "false") →
      st1.SessionMap = mapPut st.SessionMap (m.provider.SessionID sess)
        { LastAccessedTime := a.now, Lock := "false" } →
      ∃ st2, CheckLock L m a2 r2 st1 = some (st2, false) ∧
        mapGet st2.SessionMap (m.provider.SessionID sess)
          = some { LastAccessedTime := a2.now, Lock := "false" } := by
    intro st1 h1 hm1
    have hst := SessionStart_of_cookie L m a2 r2 st1 value hc2 hv
    have hC := CheckLock_blocked_result L m a2 r2 st1 h2
      { LastAccessedTime := a.now, Lock := "false" }
      (by rw [hst, h1]; exact hread2)
      (by rw [hst]; dsimp only; rw [h1]; exact hget2)
      (by rw [hm1, hid2, mapGet_mapPut, if_pos rfl])
    refine ⟨_, hC, ?_⟩
    dsimp only
    rw [hm1, hid2, mapGet_mapModify, if_pos rfl, mapGet_mapPut, if_pos rfl]
    rfl
  obtain ⟨st1, hU1, h1, hm1⟩ : ∃ st1, UnLock L m a r st = some st1 ∧
      st1.store = m.provider.Set (m.provider.SessionRead st.store (L.QueryUnescape value).1).1
        sess lockKey (Value.str "false") ∧
      st1.SessionMap = mapPut st.SessionMap (m.provider.SessionID sess)
        { LastAccessedTime := a.now, Lock := "false" } :=
    ⟨_, hU, by dsimp only; rw [hstart], rfl⟩
  obtain ⟨st2, hC, hrec⟩ := key st1 h1 hm1
  exact ⟨st1, st2, sess, hU1, hs, hC, hrec⟩

/-- Witness of `UnLock_then_CheckLock_false` on the in-memory provider. -/
theorem UnLock_then_CheckLock_false_witness :
    (requestWith [("bdpan", "s")]).Cookie (memManager "bdpan" 3600).cookieName = some "s" ∧
      "s" ≠ "" ∧ NeverNil memProvider ∧ ReadsBack memProvider ∧
      ∃ st1 st2 sess, UnLock goLib (memManager "bdpan" 3600) ⟨0, none⟩
          (requestWith [("bdpan", "s")]) emptyState = some st1 ∧
        (SessionStart goLib (memManager "bdpan" 3600) ⟨0, none⟩
          (requestWith [("bdpan", "s")]) emptyState).2 = some sess ∧
        CheckLock goLib (memManager "bdpan" 3600) ⟨7, none⟩
          (requestWith [("bdpan", "s")]) st1 = some (st2, false) ∧
        mapGet st2.SessionMap (memProvider.SessionID sess)
          = some { LastAccessedTime := 7, Lock := "false" } :=
  ⟨rfl, by decide, memProvider_neverNil, memProvider_readsBack,
    UnLock_then_CheckLock_false goLib (memManager "bdpan" 3600) ⟨0, none⟩ ⟨7, none⟩
      (requestWith [("bdpan", "s")]) (requestWith [("bdpan", "s")]) emptyState "s" rfl rfl
      (by decide) memProvider_neverNil memProvider_readsBack⟩

/-! ## `Init` -/

theorem expired_iff (now : Int) (d : SessionData) :
    expired now d = true ↔ now - d.LastAccessedTime ≥ 24 * 3600 * 1000000000 := by
  unfold expired timeSub Hour Second
  rw [decide_eq_true_iff]
  have h63 : (2 : Int) ^ 63 = 9223372036854775808 := by norm_num
  rw [h63]
  split_ifs <;> omega

theorem mapGet_eq_none_of_not_mem (m : List (String × SessionData)) (k : String)
    (hk : k ∉ mapKeys m) : mapGet m k = none := by
  induction m with
  | nil => rfl
  | cons kv rest ih =>
    obtain ⟨x, d⟩ := kv
    have hx : ¬ x = k := fun h => hk (by simp [mapKeys, h])
    have hr : k ∉ mapKeys rest := fun h => hk (by
      unfold mapKeys at h ⊢
      exact List.mem_cons_of_mem _ h)
    rw [mapGet_cons, if_neg hx, ih hr]

theorem mapGet_filter (m : List (String × SessionData)) (p : String × SessionData → Bool)
    (k : String) (hnd : (mapKeys m).Nodup) :
    mapGet (m.filter p) k = (mapGet m k).filter (fun d => p (k, d)) := by
  induction m with
  | nil => rfl
  | cons kv rest ih =>
    obtain ⟨x, d⟩ := kv
    have hnd' : x ∉ mapKeys rest ∧ (mapKeys rest).Nodup := by
      unfold mapKeys at hnd ⊢
      exact List.nodup_cons.mp hnd
    rw [List.filter_cons, mapGet_cons]
    by_cases hx : x = k
    · subst hx
      have hrest : mapGet rest x = none := mapGet_eq_none_of_not_mem rest x hnd'.1
      by_cases hp : p (x, d) = true
      · simp [hp, mapGet_cons, Option.filter]
      · simp [hp, ih hnd'.2, hrest, Option.filter]
    · by_cases hp : p (x, d) = true
      · simp [hp, mapGet_cons, hx, ih hnd'.2]
      · simp [hp, hx, ih hnd'.2]

theorem foldl_mapDelete (ks : List (String × SessionData)) (m : List (String × SessionData)) :
    ks.foldl (fun mp kv => mapDelete mp kv.1) m
      = m.filter (fun e => decide (e.1 ∉ mapKeys ks)) := by
  induction ks generalizing m with
  | nil => simp [mapKeys]
  | cons kv rest ih =>
    rw [List.foldl_cons, ih]
    unfold mapDelete mapKeys
    rw [List.filter_filter]
    apply List.filter_congr
    intro e _
    by_cases h1 : e.1 = kv.1 <;> by_cases h2 : e.1 ∈ List.map Prod.fst rest <;> simp [h1, h2]

theorem filter_expired_keys (m : List (String × SessionData)) (now : Int)
    (hnd : (mapKeys m).Nodup) :
    m.filter (fun e => decide (e.1 ∉ mapKeys (m.filter (fun kv => expired now kv.2))))
      = m.filter (fun kv => !expired now kv.2) := by
  apply List.filter_congr
  intro e he
  have hiff : e.1 ∈ mapKeys (m.filter (fun kv => expired now kv.2)) ↔ expired now e.2 = true := by
    unfold mapKeys
    rw [List.mem_map]
    constructor
    · rintro ⟨e', he', hk⟩
      rw [List.mem_filter] at he'
      have heq : e' = e := List.inj_on_of_nodup_map hnd he'.1 he hk
      rw [← heq]
      exact he'.2
    · intro hexp
      exact ⟨e, List.mem_filter.mpr ⟨he, hexp⟩, rfl⟩
  by_cases hexp : expired now e.2 = true
  · simp [hiff.mpr hexp, hexp]
  · have hn : e.1 ∉ mapKeys (m.filter (fun kv => expired now kv.2)) := fun h => hexp (hiff.mp h)
    simp [hn, hexp]

theorem InitLoop_result {σ H : Type} (m : Manager σ H) (a : Ambient)
    (hnil : NeverNil m.provider) (kvs : List (String × SessionData)) (st : State σ) :
    ∃ st', InitLoop m a kvs st = some st' ∧
      st'.SessionMap = (kvs.filter (fun kv => expired a.now kv.2)).foldl
        (fun mp kv => mapDelete mp kv.1) st.SessionMap ∧
      st'.store = (kvs.filter (fun kv => !expired a.now kv.2)).foldl
        (copyLock m.provider) st.store ∧
      st'.calls = st.calls ++ (kvs.filter (fun kv => !expired a.now kv.2)).map
        (fun kv => Call.read kv.1) ∧
      st'.saves = st.saves ∧ st'.w = st.w := by
  induction kvs generalizing st with
  | nil => exact ⟨st, rfl, rfl, rfl, by simp, rfl, rfl⟩
  | cons kv rest ih =>
    by_cases hexp : expired a.now kv.2 = true
    · obtain ⟨st', h1, h2, h3, h4, h5, h6⟩ :=
        ih { st with SessionMap := mapDelete st.SessionMap kv.1 }
      refine ⟨st', ?_, ?_, ?_, ?_, h5, h6⟩
      · unfold InitLoop InitStep
        simp only [hexp, if_true]
        exact h1
      · rw [h2, List.filter_cons]
        simp [hexp]
      · rw [h3, List.filter_cons]
        simp [hexp]
      · rw [h4, List.filter_cons]
        simp [hexp]
    · obtain ⟨session, hsess⟩ :=
        Option.ne_none_iff_exists'.mp (hnil st.store kv.1).2
      obtain ⟨st', h1, h2, h3, h4, h5, h6⟩ :=
        ih { st with
             store := m.provider.Set (m.provider.SessionRead st.store kv.1).1 session lockKey
               (Value.str kv.2.Lock)
             calls := st.calls ++ [Call.read kv.1] }
      refine ⟨st', ?_, ?_, ?_, ?_, h5, h6⟩
      · unfold InitLoop InitStep
        simp only [hexp, hsess]
        exact h1
      · rw [h2, List.filter_cons]
        simp [hexp]
      · rw [h3, List.filter_cons]
        simp [hexp, copyLock, hsess]
      · rw [h4, List.filter_cons]
        simp [hexp]

/-- C6 (as stated, refuted): a record whose timestamp is exactly 24 hours
before the current time, hence not more than 24 hours old, is deleted by
`Init`. -/
theorem Init_deletes_record_exactly_24h_old :
    ¬ ((86400000000000 : Int) - 0 > Hour * 24) ∧
      ∃ st', Init (memManager "bdpan" 3600) ⟨86400000000000, none⟩
          { store := [], SessionMap := [("s", { LastAccessedTime := 0, Lock := "false" })],
            saves := 0, w := [], calls := [] } = some st' ∧
        mapGet st'.SessionMap "s" = none ∧ st'.store = [] :=
  ⟨by decide, _, rfl, rfl, rfl⟩

/-- C6 (amended): for a fixed current time, `Init` returns and deletes a
record exactly when its last-accessed timestamp is at least 24 hours before
the current time (a record exactly 24 hours old is deleted); every other
record is kept unchanged, no record is added, and the session store results
from reading, for each kept record in turn, the session of the record's
identifier and setting its `"lock"` key to the record's lock flag. -/
theorem Init_prunes_at_24h {σ H : Type} (m : Manager σ H) (a : Ambient) (st : State σ)
    (hnd : (mapKeys st.SessionMap).Nodup) (hnil : NeverNil m.provider) :
    ∃ st', Init m a st = some st' ∧
      (∀ k d, mapGet st.SessionMap k = some d →
        mapGet st'.SessionMap k =
          if a.now - d.LastAccessedTime ≥ 24 * 3600 * 1000000000 then none else some d) ∧
      (∀ k, mapGet st.SessionMap k = none → mapGet st'.SessionMap k = none) ∧
      st'.store = (st.SessionMap.filter (fun kv => !expired a.now kv.2)).foldl
        (copyLock m.provider) st.store ∧
      st'.calls = st.calls ++ (st.SessionMap.filter (fun kv => !expired a.now kv.2)).map
        (fun kv => Call.read kv.1) := by
  obtain ⟨st', h1, h2, h3, h4, _, _⟩ := InitLoop_result m a hnil st.SessionMap st
  rw [foldl_mapDelete, filter_expired_keys st.SessionMap a.now hnd] at h2
  refine ⟨st', h1, ?_, ?_, h3, h4⟩
  · intro k d hd
    rw [h2, mapGet_filter _ _ _ hnd, hd]
    by_cases hexp : expired a.now d = true
    · rw [if_pos ((expired_iff a.now d).mp hexp)]
      simp [Option.filter, hexp]
    · rw [if_neg (fun h => hexp ((expired_iff a.now d).mpr h))]
      simp [Option.filter, hexp]
  · intro k hk
    rw [h2, mapGet_filter _ _ _ hnd, hk]
    rfl

/-- Witness of `Init_prunes_at_24h`: of two records, the one 24 hours old is
deleted and the younger one is kept and copied into its session. -/
theorem Init_prunes_at_24h_witness :
    (mapKeys [("old", ({ LastAccessedTime := 0, Lock := "true" } : SessionData)),
        ("new", { LastAccessedTime := 1, Lock := "false" })]).Nodup ∧
      NeverNil memProvider ∧
      ∃ st', Init (memManager "bdpan" 3600) ⟨86400000000000, none⟩
          { store := [],
            SessionMap := [("old", { LastAccessedTime := 0, Lock := "true" }),
              ("new", { LastAccessedTime := 1, Lock := "false" })],
            saves := 0, w := [], calls := [] } = some st' ∧
        (∀ k d, mapGet [("old", ({ LastAccessedTime := 0, Lock := "true" } : SessionData)),
              ("new", { LastAccessedTime := 1, Lock := "false" })] k = some d →
          mapGet st'.SessionMap k =
            if (86400000000000 : Int) - d.LastAccessedTime ≥ 24 * 3600 * 1000000000 then none
            else some d) :=
  ⟨by decide, memProvider_neverNil,
    (Init_prunes_at_24h (memManager "bdpan" 3600) ⟨86400000000000, none⟩
      { store := [],
        SessionMap := [("old", { LastAccessedTime := 0, Lock := "true" }),
          ("new", { LastAccessedTime := 1, Lock := "false" })],
        saves := 0, w := [], calls := [] }
      (by decide) memProvider_neverNil).imp (fun _ h => ⟨h.1, h.2.1⟩)⟩

/-! ## Cookies and provider calls of `SessionStart` -/

theorem SessionStart_without_cookie {σ H : Type} (L : Stdlib) (m : Manager σ H) (a : Ambient)
    (r : Request) (st : State σ)
    (hc : r.Cookie m.cookieName = none ∨ r.Cookie m.cookieName = some "") :
    SessionStart L m a r st =
      ({ st with
         store := (m.provider.SessionInit st.store (sessionId L a)).1
         w := st.w ++ [{ Name := m.cookieName
                         Value := L.QueryEscape (sessionId L a)
                         Path := "/"
                         HttpOnly := true
                         MaxAge := lifeTimeDuration m.maxLifeTime
                         Expires := a.now + lifeTimeDuration m.maxLifeTime }]
         calls := st.calls ++ [Call.init (sessionId L a)] },
        (m.provider.SessionInit st.store (sessionId L a)).2) := by
  unfold SessionStart
  rcases hc with hc | hc
  · simp only [hc]
  · simp only [hc, if_true]

/-- The cookie's `MaxAge` is the count of nanoseconds in `maxLifeTime`
seconds, for every lifetime whose nanosecond count fits in 64 bits. -/
theorem lifeTimeDuration_eq (n : Int) (hlo : -9223372036 ≤ n) (hhi : n ≤ 9223372036) :
    lifeTimeDuration n = 1000000000 * n := by
  unfold lifeTimeDuration wrap64 Second
  have h63 : (2 : Int) ^ 63 = 9223372036854775808 := by norm_num
  have h64 : (2 : Int) ^ 64 = 18446744073709551616 := by norm_num
  rw [h63, h64]
  omega

/-- C7: for a manager with max-lifetime 3600 and a request without the
session cookie, the cookie that `SessionStart` issues has `Path` "/" and
`HttpOnly` set, but its `MaxAge` is 3600000000000, the number of nanoseconds
in an hour, and not 3600. -/
theorem SessionStart_MaxAge_is_nanoseconds {σ H : Type} (L : Stdlib) (P : Provider σ H)
    (name : String) (a : Ambient) (st : State σ) :
    (SessionStart L { cookieName := name, provider := P, maxLifeTime := 3600 } a
        { Cookie := fun _ => none } st).1.w
      = st.w ++ [{ Name := name
                   Value := L.QueryEscape (sessionId L a)
                   Path := "/"
                   HttpOnly := true
                   MaxAge := 3600000000000
                   Expires := a.now + 3600000000000 }] ∧
      (3600000000000 : Int) ≠ 3600 := by
  constructor
  · rw [SessionStart_without_cookie L _ a _ st (Or.inl rfl)]
    have hd : lifeTimeDuration 3600 = 3600000000000 := by decide
    simp only [hd]
  · decide

/-- C8: on a request without a cookie of the configured name, or with an
empty one, `SessionStart` makes one provider call, `SessionInit` with the
identifier produced by `sessionId`, returns that call's session and adds one
response cookie, whose value is the escaped identifier; on a request with a
non-empty cookie it makes one provider call, `SessionRead` with the unescaped
cookie value, returns that call's session and adds no response cookie. -/
theorem SessionStart_provider_calls {σ H : Type} (L : Stdlib) (m : Manager σ H) (a : Ambient)
    (r : Request) (st : State σ) :
    ((r.Cookie m.cookieName = none ∨ r.Cookie m.cookieName = some "") →
      (SessionStart L m a r st).1.calls = st.calls ++ [Call.init (sessionId L a)] ∧
      (SessionStart L m a r st).2 = (m.provider.SessionInit st.store (sessionId L a)).2 ∧
      (SessionStart L m a r st).1.store = (m.provider.SessionInit st.store (sessionId L a)).1 ∧
      ∃ c, (SessionStart L m a r st).1.w = st.w ++ [c] ∧ c.Name = m.cookieName ∧
        c.Value = L.QueryEscape (sessionId L a)) ∧
    (∀ value, r.Cookie m.cookieName = some value → value ≠ "" →
      (SessionStart L m a r st).1.calls = st.calls ++ [Call.read (L.QueryUnescape value).1] ∧
      (SessionStart L m a r st).2
        = (m.provider.SessionRead st.store (L.QueryUnescape value).1).2 ∧
      (SessionStart L m a r st).1.store
        = (m.provider.SessionRead st.store (L.QueryUnescape value).1).1 ∧
      (SessionStart L m a r st).1.w = st.w) := by
  constructor
  · intro hc
    rw [SessionStart_without_cookie L m a r st hc]
    exact ⟨rfl, rfl, rfl, _, rfl, rfl, rfl⟩
  · intro value hc hv
    rw [SessionStart_of_cookie L m a r st value hc hv]
    exact ⟨rfl, rfl, rfl, rfl⟩

/-- Witness of `SessionStart_provider_calls`: one request without a cookie and
one with the cookie `s`. -/
theorem SessionStart_provider_calls_witness :
    ((requestWith []).Cookie (memManager "bdpan" 3600).cookieName = none ∧
      (SessionStart goLib (memManager "bdpan" 3600) ⟨0, some [1, 2, 3]⟩ (requestWith [])
        emptyState).1.calls = [Call.init "AQID"]) ∧
    ((requestWith [("bdpan", "s")]).Cookie (memManager "bdpan" 3600).cookieName = some "s" ∧
      "s" ≠ "" ∧
      (SessionStart goLib (memManager "bdpan" 3600) ⟨0, none⟩ (requestWith [("bdpan", "s")])
        emptyState).1.calls = [Call.read "s"] ∧
      (SessionStart goLib (memManager "bdpan" 3600) ⟨0, none⟩ (requestWith [("bdpan", "s")])
        emptyState).1.w = []) :=
  ⟨⟨rfl, ((SessionStart_provider_calls goLib (memManager "bdpan" 3600) ⟨0, some [1, 2, 3]⟩
      (requestWith []) emptyState).1 (Or.inl rfl)).1⟩,
    ⟨rfl, by decide,
      ((SessionStart_provider_calls goLib (memManager "bdpan" 3600) ⟨0, none⟩
        (requestWith [("bdpan", "s")]) emptyState).2 "s" rfl (by decide)).1,
      ((SessionStart_provider_calls goLib (memManager "bdpan" 3600) ⟨0, none⟩
        (requestWith [("bdpan", "s")]) emptyState).2 "s" rfl (by decide)).2.2.2⟩⟩

/-- C9 (as stated, refuted): after `SessionDestroy` on a request with the
session cookie `s`, `SessionStart` on a request with the same cookie returns a
session whose identifier is `s` again; the session is a fresh one, without the
old `"lock"` value. -/
theorem destroy_then_start_keeps_identifier :
    (goLib.QueryUnescape "s").1 = "s" ∧
      ∃ sess, (SessionStart goLib (memManager "bdpan" 3600) ⟨2, none⟩
          (requestWith [("bdpan", "s")])
          (SessionDestroy goLib (memManager "bdpan" 3600) ⟨1, none⟩
            (requestWith [("bdpan", "s")])
            { store := [("s", [(lockKey, Value.str "true")])], SessionMap := [], saves := 0,
              w := [], calls := [] })).2 = some sess ∧
        memProvider.SessionID sess = "s" ∧ ¬ (memProvider.SessionID sess ≠ "s") ∧
        (memProvider.Get (SessionStart goLib (memManager "bdpan" 3600) ⟨2, none⟩
          (requestWith [("bdpan", "s")])
          (SessionDestroy goLib (memManager "bdpan" 3600) ⟨1, none⟩
            (requestWith [("bdpan", "s")])
            { store := [("s", [(lockKey, Value.str "true")])], SessionMap := [], saves := 0,
              w := [], calls := [] })).1.store sess lockKey).2 = none :=
  ⟨rfl, "s", rfl, rfl, fun h => h rfl, rfl⟩

/-- C9 (amended): for every request carrying a non-empty session cookie for
the identifier `s`, after `SessionDestroy` on that request, `SessionStart` on a
request carrying the same cookie generates no identifier: it returns the
session that the provider's `SessionRead` yields for `s` in the store left by
the destruction, whose identifier is `s`, and it adds no response cookie. -/
theorem destroy_then_start_reads_same_identifier {σ H : Type} (L : Stdlib) (m : Manager σ H)
    (a a2 : Ambient) (r r2 : Request) (st : State σ) (value : String)
    (hc : r.Cookie m.cookieName = some value) (hc2 : r2.Cookie m.cookieName = some value)
    (hv : value ≠ "") (hnil : NeverNil m.provider) (hid : ReadId m.provider) :
    ∃ sess, (SessionStart L m a2 r2 (SessionDestroy L m a r st)).2 = some sess ∧
      m.provider.SessionID sess = (L.QueryUnescape value).1 ∧
      (m.provider.SessionRead (m.provider.SessionDestroy st.store (L.QueryUnescape value).1)
        (L.QueryUnescape value).1).2 = some sess ∧
      (SessionStart L m a2 r2 (SessionDestroy L m a r st)).1.calls
        = st.calls ++ [Call.destroy (L.QueryUnescape value).1,
            Call.read (L.QueryUnescape value).1] ∧
      (SessionStart L m a2 r2 (SessionDestroy L m a r st)).1.w
        = (SessionDestroy L m a r st).w := by
  have hD : SessionDestroy L m a r st =
      { st with
        store := m.provider.SessionDestroy st.store (L.QueryUnescape value).1
        w := st.w ++ [{ Name := m.cookieName, Value := "", Path := "/", HttpOnly := true,
                        MaxAge := -1, Expires := a.now }]
        calls := st.calls ++ [Call.destroy (L.QueryUnescape value).1] } := by
    unfold SessionDestroy
    simp [hc, hv]
  rw [SessionStart_of_cookie L m a2 r2 _ value hc2 hv, hD]
  dsimp only
  obtain ⟨sess, hsess⟩ := Option.ne_none_iff_exists'.mp
    (hnil (m.provider.SessionDestroy st.store (L.QueryUnescape value).1)
      (L.QueryUnescape value).1).2
  refine ⟨sess, hsess, hid _ _ _ hsess, hsess, ?_, rfl⟩
  simp

/-- Witness of `destroy_then_start_reads_same_identifier` on the in-memory
provider. -/
theorem destroy_then_start_reads_same_identifier_witness :
    (requestWith [("bdpan", "s")]).Cookie (memManager "bdpan" 3600).cookieName = some "s" ∧
      "s" ≠ "" ∧ NeverNil memProvider ∧ ReadId memProvider ∧
      ∃ sess, (SessionStart goLib (memManager "bdpan" 3600) ⟨2, none⟩
          (requestWith [("bdpan", "s")])
          (SessionDestroy goLib (memManager "bdpan" 3600) ⟨1, none⟩
            (requestWith [("bdpan", "s")]) emptyState)).2 = some sess ∧
        memProvider.SessionID sess = (goLib.QueryUnescape "s").1 :=
  ⟨rfl, by decide, memProvider_neverNil, memProvider_readId,
    (destroy_then_start_reads_same_identifier goLib (memManager "bdpan" 3600) ⟨1, none⟩
      ⟨2, none⟩ (requestWith [("bdpan", "s")]) (requestWith [("bdpan", "s")]) emptyState "s"
      rfl rfl (by decide) memProvider_neverNil memProvider_readId).imp
      (fun _ h => ⟨h.1, h.2.1⟩)⟩

/-! ## Reachable states -/

theorem memFind_nil (k : String) : memFind [] k = none := rfl

theorem memFind_filter (s : MemStore) (sid h : String) :
    memFind (s.filter (fun e => decide (e.1 ≠ sid))) h = if h = sid then none else memFind s h := by
  induction s with
  | nil => simp [memFind_nil]
  | cons e rest ih =>
    obtain ⟨x, kvs⟩ := e
    rw [List.filter_cons]
    by_cases hx : x = sid
    · subst hx
      simp only [ne_eq, not_true_eq_false, decide_False, Bool.false_eq_true, if_false,
        memFind_cons]
      rw [ih]
      by_cases hk : h = x
      · simp [hk]
      · have hk2 : ¬ x = h := fun e => hk e.symm
        simp [hk, hk2]
    · simp only [ne_eq, hx, not_false_eq_true, decide_True, if_true, memFind_cons]
      rw [ih]
      by_cases hxk : x = h
      · have hk : ¬ h = sid := fun e => hx (hxk.trans e)
        simp [hxk, hk]
      · simp [hxk]

theorem memGet_init (s : MemStore) (sid h : String) (k : Value) :
    (memProvider.Get (memProvider.SessionInit s sid).1 h k).2
      = if h = sid then none else (memProvider.Get s h k).2 := by
  simp only [memProvider, memFind_cons, memFind_filter]
  by_cases hh : h = sid
  · subst hh
    simp [kvGet]
  · have h2 : ¬ sid = h := fun e => hh e.symm
    simp [hh, h2]

theorem memGet_read (s : MemStore) (sid h : String) (k : Value) :
    (memProvider.Get (memProvider.SessionRead s sid).1 h k).2 = (memProvider.Get s h k).2 := by
  simp only [memProvider]
  cases hf : memFind s sid with
  | some kvs => rfl
  | none =>
    simp only [memFind_cons, memFind_filter]
    by_cases hh : h = sid
    · subst hh
      simp [kvGet, hf]
    · have h2 : ¬ sid = h := fun e => hh e.symm
      simp [hh, h2]

theorem memGet_destroy (s : MemStore) (sid h : String) (k : Value) :
    (memProvider.Get (memProvider.SessionDestroy s sid) h k).2
      = if h = sid then none else (memProvider.Get s h k).2 := by
  simp only [memProvider, memFind_filter]
  by_cases hh : h = sid
  · simp [hh]
  · simp [hh]

theorem memGet_set_other (s : MemStore) (h h' : String) (k v k' : Value) (hne : h' ≠ h) :
    (memProvider.Get (memProvider.Set s h k v) h' k').2 = (memProvider.Get s h' k').2 := by
  have h2 : ¬ h = h' := fun e => hne e.symm
  simp only [memProvider]
  cases hf : memFind s h with
  | some kvs => simp only [memFind_cons, memFind_filter, if_neg h2, if_neg hne]
  | none => simp only [memFind_cons, if_neg h2]


theorem RecordForBlocked_of_le (st st' : State MemStore)
    (hstore : ∀ sid v, (memProvider.Get st'.store sid lockKey).2 = some v →
      (memProvider.Get st.store sid lockKey).2 = some v)
    (hmap : ∀ sid, mapGet st.SessionMap sid ≠ none → mapGet st'.SessionMap sid ≠ none)
    (h : RecordForBlocked st) : RecordForBlocked st' :=
  fun sid v hv hne => hmap sid (h sid v (hstore sid v hv) hne)

theorem SessionStart_get_le (L : Stdlib) (name : String) (n : Int) (a : Ambient) (r : Request)
    (st : State MemStore) (sid : String) (v : Value)
    (hv : (memProvider.Get (SessionStart L (memManager name n) a r st).1.store sid lockKey).2
      = some v) :
    (memProvider.Get st.store sid lockKey).2 = some v := by
  rcases hc : r.Cookie name with _ | value
  · rw [SessionStart_without_cookie L (memManager name n) a r st (Or.inl hc)] at hv
    dsimp only [memManager] at hv
    rw [memGet_init] at hv
    by_cases hh : sid = sessionId L a
    · rw [if_pos hh] at hv
      cases hv
    · rw [if_neg hh] at hv
      exact hv
  · by_cases hval : value = ""
    · subst hval
      rw [SessionStart_without_cookie L (memManager name n) a r st (Or.inr hc)] at hv
      dsimp only [memManager] at hv
      rw [memGet_init] at hv
      by_cases hh : sid = sessionId L a
      · rw [if_pos hh] at hv
        cases hv
      · rw [if_neg hh] at hv
        exact hv
    · rw [SessionStart_of_cookie L (memManager name n) a r st value hc hval] at hv
      dsimp only [memManager] at hv
      rw [memGet_read] at hv
      exact hv

theorem mapGet_mapModify_ne_none (m : List (String × SessionData)) (k k' : String)
    (f : SessionData → SessionData) (h : mapGet m k' ≠ none) :
    mapGet (mapModify m k f) k' ≠ none := by
  rw [mapGet_mapModify]
  by_cases hk : k' = k
  · subst hk
    rw [if_pos rfl]
    obtain ⟨d, hd⟩ := Option.ne_none_iff_exists'.mp h
    rw [hd]
    exact fun e => Option.noConfusion e
  · rw [if_neg hk]
    exact h

theorem mapGet_mapPut_ne_none (m : List (String × SessionData)) (k k' : String)
    (d : SessionData) (h : mapGet m k' ≠ none) : mapGet (mapPut m k d) k' ≠ none := by
  rw [mapGet_mapPut]
  by_cases hk : k' = k
  · rw [if_pos hk]
    exact fun e => Option.noConfusion e
  · rw [if_neg hk]
    exact h

theorem step_keeps_records (L : Stdlib) (name : String) (n : Int) (o : Op) (a : Ambient)
    (r : Request) (st : State MemStore) (ho : o ≠ Op.init) (h : RecordForBlocked st) :
    ∃ st', step L (memManager name n) o a r st = some st' ∧ RecordForBlocked st' := by
  have hstart : RecordForBlocked (SessionStart L (memManager name n) a r st).1 :=
    RecordForBlocked_of_le st _ (SessionStart_get_le L name n a r st)
      (fun sid hs => by rw [SessionStart_SessionMap]; exact hs) h
  obtain ⟨sess, hs⟩ := SessionStart_some L (memManager name n) a r st memProvider_neverNil
  have hmap := SessionStart_SessionMap L (memManager name n) a r st
  cases o with
  | init => exact absurd rfl ho
  | start => exact ⟨_, rfl, hstart⟩
  | lock =>
    refine ⟨_, Lock_result L (memManager name n) a r st sess hs, ?_⟩
    intro sid v hv hne
    dsimp only [memManager] at hv ⊢
    have hkeys : mapGet st.SessionMap sid ≠ none →
        mapGet (if mapGet st.SessionMap (memProvider.SessionID sess) = none then st.SessionMap
          else mapModify st.SessionMap (memProvider.SessionID sess)
            (fun d => { d with Lock := "true" })) sid ≠ none := by
      intro hrec
      split_ifs
      · exact hrec
      · exact mapGet_mapModify_ne_none _ _ _ _ hrec
    apply hkeys
    by_cases hh : sid = sess
    · subst hh
      rw [memProvider_getAfterSet] at hv
      cases hv
      exact absurd rfl hne
    · rw [memGet_set_other _ _ _ _ _ _ hh] at hv
      have := hstart sid v hv hne
      rw [hmap] at this
      exact this
  | unlock =>
    refine ⟨_, UnLock_result L (memManager name n) a r st sess hs, ?_⟩
    intro sid v hv hne
    dsimp only [memManager] at hv ⊢
    by_cases hh : sid = sess
    · subst hh
      rw [mapGet_mapPut]
      simp [memProvider]
    · rw [memGet_set_other _ _ _ _ _ _ hh] at hv
      have := hstart sid v hv hne
      rw [hmap] at this
      exact mapGet_mapPut_ne_none _ _ _ _ this
  | wsUnlock =>
    obtain ⟨wsess, hws⟩ := Option.ne_none_iff_exists'.mp
      (memProvider_neverNil st.store (webSocketSid L (memManager name n) r)).2
    have hwid : wsess = webSocketSid L (memManager name n) r :=
      memProvider_readId _ _ _ hws
    refine ⟨_, WebSocketUnLock_result L (memManager name n) a r st wsess hws, ?_⟩
    intro sid v hv hne
    dsimp only [memManager] at hv ⊢
    by_cases hh : sid = wsess
    · rw [mapGet_mapPut, hh, hwid]
      simp [memManager]
    · rw [memGet_set_other _ _ _ _ _ _ hh, memGet_read] at hv
      exact mapGet_mapPut_ne_none _ _ _ _ (h sid v hv hne)
  | check =>
    by_cases hcond :
        (memProvider.Get (SessionStart L (memManager name n) a r st).1.store sess lockKey).2
          = some (Value.str "true") ∨
        (memProvider.Get (SessionStart L (memManager name n) a r st).1.store sess lockKey).2
          = none
    · refine ⟨{ (SessionStart L (memManager name n) a r st).1 with
                store := (memProvider.Get (SessionStart L (memManager name n) a r st).1.store
                  sess lockKey).1 }, ?_, hstart⟩
      unfold step CheckLock
      simp only [hs]
      dsimp only [memManager] at hcond ⊢
      rw [if_pos hcond]
      rfl
    · obtain ⟨v, hv⟩ := Option.ne_none_iff_exists'.mp (fun e => hcond (Or.inr e))
      have hvne : v ≠ Value.str "true" := fun e => hcond (Or.inl (by rw [hv, e]))
      obtain ⟨d, hd⟩ := Option.ne_none_iff_exists'.mp (hstart sess v hv hvne)
      refine ⟨{ (SessionStart L (memManager name n) a r st).1 with
                store := (memProvider.Get (SessionStart L (memManager name n) a r st).1.store
                  sess lockKey).1
                SessionMap := mapModify (SessionStart L (memManager name n) a r st).1.SessionMap
                  sess (fun d => { d with LastAccessedTime := a.now }) }, ?_, ?_⟩
      · unfold step CheckLock
        simp only [hs]
        dsimp only [memManager] at hcond hd ⊢
        rw [if_neg hcond]
        have hd2 : mapGet (SessionStart L
            { cookieName := name, provider := memProvider, maxLifeTime := n } a r st).1.SessionMap
            (memProvider.SessionID sess) = some d := hd
        simp only [hd2]
        rfl
      · exact RecordForBlocked_of_le (SessionStart L (memManager name n) a r st).1 _
          (fun _ _ hx => hx)
          (fun sid hx => mapGet_mapModify_ne_none _ sess sid
            (fun d => { d with LastAccessedTime := a.now }) hx) hstart
  | destroy =>
    refine ⟨_, rfl, ?_⟩
    apply RecordForBlocked_of_le st _ _ _ h
    · intro sid v hv
      unfold SessionDestroy at hv
      rcases hc : r.Cookie name with _ | value
      · simp only [memManager, hc] at hv
        exact hv
      · by_cases hval : value = ""
        · simp only [memManager, hc, hval, if_true] at hv
          exact hv
        · simp only [memManager, hc, hval, if_false] at hv
          rw [memGet_destroy] at hv
          by_cases hh : sid = (L.QueryUnescape value).1
          · rw [if_pos hh] at hv
            cases hv
          · rw [if_neg hh] at hv
            exact hv
    · intro sid hx
      unfold SessionDestroy
      rcases hc : r.Cookie name with _ | value
      · simp only [memManager, hc]
        exact hx
      · by_cases hval : value = ""
        · simp only [memManager, hc, hval, if_true]
          exact hx
        · simp only [memManager, hc, hval, if_false]
          exact hx

theorem run_without_Init_keeps_records (L : Stdlib) (name : String) (n : Int)
    (ops : List (Op × Ambient × Request)) (st : State MemStore)
    (hno : ∀ x ∈ ops, x.1 ≠ Op.init) (h : RecordForBlocked st) :
    ∃ st', run L (memManager name n) ops st = some st' ∧ RecordForBlocked st' := by
  induction ops generalizing st with
  | nil => exact ⟨st, rfl, h⟩
  | cons x rest ih =>
    obtain ⟨o, a, r⟩ := x
    obtain ⟨st1, h1, hinv1⟩ :=
      step_keeps_records L name n o a r st (hno (o, a, r) (List.mem_cons_self _ _)) h
    obtain ⟨st', h2, hinv2⟩ := ih st1 (fun y hy => hno y (List.mem_cons_of_mem _ hy)) hinv1
    refine ⟨st', ?_, hinv2⟩
    unfold run
    simp only [h1]
    exact h2

/-- As long as `Init` is not called, no call panics and every state reached
from the empty stores has a durable record for each session whose `"lock"`
value is neither nil nor `"true"`. -/
theorem reachable_without_Init_keeps_records (L : Stdlib) (name : String) (n : Int)
    (ops : List (Op × Ambient × Request)) (hno : ∀ x ∈ ops, x.1 ≠ Op.init) :
    ∃ st', run L (memManager name n) ops emptyState = some st' ∧ RecordForBlocked st' :=
  run_without_Init_keeps_records L name n ops emptyState hno
    (fun _ _ hv _ => Option.noConfusion hv)



/-- C10: from the empty session and durable stores, `UnLock` on the session
`s` followed 25 hours later by `Init` reaches a state in which the `"lock"`
value of `s` is `"false"` while the durable store has no record for `s`; a
`CheckLock` on `s` in that state dereferences the missing record and panics. -/
theorem CheckLock_reaches_missing_record :
    ∃ st, run goLib (memManager "bdpan" 3600)
        [(Op.unlock, ⟨0, none⟩, requestWith [("bdpan", "s")]),
          (Op.init, ⟨90000000000000, none⟩, requestWith [])] emptyState = some st ∧
      (memProvider.Get st.store "s" lockKey).2 = some (Value.str "false") ∧
      mapGet st.SessionMap "s" = none ∧
      CheckLock goLib (memManager "bdpan" 3600) ⟨90000000000001, none⟩
        (requestWith [("bdpan", "s")]) st = none ∧
      step goLib (memManager "bdpan" 3600) Op.check ⟨90000000000001, none⟩
        (requestWith [("bdpan", "s")]) st = none :=
  ⟨_, rfl, rfl, rfl, rfl, rfl⟩

/-! ## `Init` on the in-memory provider -/

theorem mapGet_mem (m : List (String × SessionData)) (k : String) (d : SessionData)
    (h : mapGet m k = some d) : (k, d) ∈ m := by
  induction m with
  | nil => cases h
  | cons kv rest ih =>
    obtain ⟨x, d0⟩ := kv
    rw [mapGet_cons] at h
    by_cases hx : x = k
    · rw [if_pos hx] at h
      cases h
      rw [hx]
      exact List.mem_cons_self _ _
    · rw [if_neg hx] at h
      exact List.mem_cons_of_mem _ (ih h)

theorem copyLock_mem (s : MemStore) (kv : String × SessionData) :
    copyLock memProvider s kv
      = memProvider.Set (memProvider.SessionRead s kv.1).1 kv.1 lockKey (Value.str kv.2.Lock) := by
  unfold copyLock
  have hr : (memProvider.SessionRead s kv.1).2 = some kv.1 := by
    simp only [memProvider]
    cases memFind s kv.1 <;> rfl
  simp only [hr]

theorem foldl_copyLock_get (l : List (String × SessionData)) (s : MemStore)
    (hnd : (mapKeys l).Nodup) :
    (∀ k d, (k, d) ∈ l →
      (memProvider.Get (l.foldl (copyLock memProvider) s) k lockKey).2
        = some (Value.str d.Lock)) ∧
    (∀ k, k ∉ mapKeys l →
      (memProvider.Get (l.foldl (copyLock memProvider) s) k lockKey).2
        = (memProvider.Get s k lockKey).2) := by
  induction l generalizing s with
  | nil =>
    constructor
    · intro k d h
      cases h
    · intro k _
      rfl
  | cons kv rest ih =>
    have hnd' : kv.1 ∉ mapKeys rest ∧ (mapKeys rest).Nodup := by
      unfold mapKeys at hnd ⊢
      exact List.nodup_cons.mp hnd
    obtain ⟨ih1, ih2⟩ := ih (copyLock memProvider s kv) hnd'.2
    rw [List.foldl_cons]
    constructor
    · intro k d h
      rcases List.mem_cons.mp h with heq | hin
      · rw [← heq] at hnd'
        rw [ih2 k hnd'.1, ← heq, copyLock_mem]
        exact memProvider_getAfterSet _ _ _ _
      · exact ih1 k d hin
    · intro k hk
      have hne : k ≠ kv.1 := fun e => hk (by
        unfold mapKeys
        rw [e]
        exact List.mem_cons_self _ _)
      have hr : k ∉ mapKeys rest := fun e => hk (by
        unfold mapKeys at e ⊢
        exact List.mem_cons_of_mem _ e)
      rw [ih2 k hr, copyLock_mem, memGet_set_other _ _ _ _ _ _ hne, memGet_read]

/-- On the in-memory provider, after `Init` every kept record's lock flag is
the value read back under the `"lock"` key of the session of the record's
identifier. -/
theorem Init_copies_lock_flag (name : String) (n : Int) (a : Ambient) (st : State MemStore)
    (hnd : (mapKeys st.SessionMap).Nodup) :
    ∃ st', Init (memManager name n) a st = some st' ∧
      ∀ k d, mapGet st.SessionMap k = some d → expired a.now d = false →
        (memProvider.Get st'.store k lockKey).2 = some (Value.str d.Lock) := by
  obtain ⟨st', h1, _, h3, _, _, _⟩ :=
    InitLoop_result (memManager name n) a memProvider_neverNil st.SessionMap st
  refine ⟨st', h1, ?_⟩
  intro k d hd hexp
  have hsub : (mapKeys (st.SessionMap.filter (fun kv => !expired a.now kv.2))).Nodup := by
    unfold mapKeys at hnd ⊢
    exact hnd.sublist ((List.filter_sublist _).map _)
  have hmem : (k, d) ∈ st.SessionMap.filter (fun kv => !expired a.now kv.2) := by
    rw [List.mem_filter]
    exact ⟨mapGet_mem _ _ _ hd, by simp [hexp]⟩
  rw [h3]
  exact (foldl_copyLock_get _ st.store hsub).1 k d hmem

end Pcsweb
